import Mathlib

/-!
Verification of the Momentum media-generation pipeline.

This file gives a shallow embedding, in Lean 4, of the pipeline logic of the
Momentum repository (`momentum/controller.py`, `momentum/services/*.py`,
`momentum/components/*.py`, `momentum/models/*.py`) and proves the frozen
behavioural claims about it.

Modelling conventions:
- The file system is a plain datum: a list of existing file paths (plus, for
  the renderer, a list of existing directories).  Existence checks in the
  source (`Path.exists`, `Path.is_file`) become list membership.
- External collaborators (the generative model, `librosa`, `ffmpeg`, the JSON
  parser) are parameters of the embedded functions: an oracle value or
  function stands for whatever the collaborator returns, including failure.
- Python exceptions become `Except` results; `async`/`await` sequencing is the
  textual order of the code, which for the sequential loops of this source is
  ordinary recursion.
- Seconds and other float quantities are modelled as rationals (ℚ).
-/

set_option autoImplicit false

namespace Momentum

/-! ## Data model (momentum/models/analysis.py, momentum/models/editing.py) -/

/-- Pydantic model `VideoSceneAnalysis` (momentum/models/analysis.py): a
description and the key-moment timestamp of one analyzed video. -/
structure VideoSceneAnalysis where
  description : String
  key_moment_timestamp : ℚ
deriving DecidableEq, Repr

/-- Pydantic model `AudioAnalysis` (momentum/models/analysis.py): its only
field is the list of detected beat timestamps (default `[]`). -/
structure AudioAnalysis where
  beat_timestamps : List ℚ
deriving DecidableEq, Repr

/-- Pydantic model `TextOverlay` (momentum/models/editing.py). -/
structure TextOverlay where
  text : String
  font_size : Int
  position : String
  style : String
deriving DecidableEq, Repr

/-- Pydantic model `Shot` (momentum/models/editing.py).  Note that the model
declares `start_time` and `end_time` as plain floats with no relational
validator: nothing in the schema requires `end_time > start_time`. -/
structure Shot where
  source_video : String
  start_time : ℚ
  end_time : ℚ
  transition_to_next : String
  text_overlay : Option TextOverlay
deriving DecidableEq, Repr

/-- Pydantic model `EditDecisionList` (momentum/models/editing.py): an ordered
list of shots.  The schema places no minimum length on `shots`. -/
structure EditDecisionList where
  shots : List Shot
deriving DecidableEq, Repr

/-! ## Media classification (momentum/controller.py, start_video_generation) -/

/-- Final path component: the characters after the last `/` separator. -/
def nameAfterSlash (cs : List Char) : List Char :=
  cs.foldl (fun acc c => if c = '/' then [] else acc ++ [c]) []

/-- Python `pathlib.PurePath.suffix` of a path string: the extension of the
final path component, taken from its last dot (`name[i:]` for
`i = name.rfind('.')` when `0 < i < len(name) - 1`, else the empty string). -/
def pySuffix (p : String) : String :=
  let name := nameAfterSlash p.toList
  match name.reverse.findIdx? (fun c => c = '.') with
  | none => ""
  | some j =>
    let i := name.length - 1 - j
    if 0 < i ∧ i < name.length - 1 then String.mk (name.drop i) else ""

/-- Python `str.lower()` restricted to ASCII, which covers the extension
strings compared against in the source. -/
def asciiLower (s : String) : String :=
  String.mk (s.toList.map Char.toLower)

/-- Classification of one input path by lower-cased extension, as in the
`suffix in ['.mp3', '.wav']` / `suffix in ['.mp4', '.mov']` tests of
`MomentumController.start_video_generation`. -/
inductive MediaKind where
  | audio
  | video
  | other
deriving DecidableEq, Repr

/-- The extension test applied to each input path by
`MomentumController.start_video_generation` (controller.py lines 62-71). -/
def kindOf (p : String) : MediaKind :=
  let s := asciiLower (pySuffix p)
  if s = ".mp3" ∨ s = ".wav" then .audio
  else if s = ".mp4" ∨ s = ".mov" then .video
  else .other

/-- Error taxonomy of the input-classification phase: `FileNotFoundError` for a
missing input, `ValueError` for the two count checks (controller.py lines
59-60 and 73-76). -/
inductive InputError where
  | missingFile (p : String)
  | noAudioFound
  | noVideoFound
deriving DecidableEq, Repr

/-- The classification loop of `MomentumController.start_video_generation`
(controller.py lines 57-71): each path is first checked for existence
(`FileNotFoundError` aborts the whole call at the first missing path), then
sorted by extension; a second audio file only logs a warning and is discarded,
an unsupported extension is skipped with a warning. -/
def classifyLoop (fs : List String) (audio : Option String) (videos : List String) :
    List String → Except InputError (Option String × List String)
  | [] => .ok (audio, videos)
  | p :: rest =>
    if fs.contains p = false then .error (.missingFile p)
    else
      match kindOf p with
      | .audio =>
        match audio with
        | some _ => classifyLoop fs audio videos rest
        | none => classifyLoop fs (some p) videos rest
      | .video => classifyLoop fs audio (videos ++ [p]) rest
      | .other => classifyLoop fs audio videos rest

/-- The whole classification phase of
`MomentumController.start_video_generation` (controller.py lines 57-76): the
per-path loop followed by the `NoAudioFound` and then `NoVideoFound` count
checks, yielding the audio path and the video paths in input order. -/
def classifyInputs (fs : List String) (file_paths : List String) :
    Except InputError (String × List String) :=
  match classifyLoop fs none [] file_paths with
  | .error e => .error e
  | .ok (a, vs) =>
    match a with
    | none => .error .noAudioFound
    | some ap => if vs.isEmpty then .error .noVideoFound else .ok (ap, vs)

/-- Decidable equality for `Except`, needed to evaluate concrete pipeline
outcomes with `decide`. -/
instance instDecEqExcept {ε α : Type _} [DecidableEq ε] [DecidableEq α] :
    DecidableEq (Except ε α)
  | .error e, .error f =>
    if h : e = f then .isTrue (h ▸ rfl) else .isFalse (fun hc => h (Except.error.inj hc))
  | .error _, .ok _ => .isFalse (fun hc => Except.noConfusion hc)
  | .ok _, .error _ => .isFalse (fun hc => Except.noConfusion hc)
  | .ok a, .ok b =>
    if h : a = b then .isTrue (h ▸ rfl) else .isFalse (fun hc => h (Except.ok.inj hc))

/-- Observable outcome of the classification phase of the controller:
whether control reached the analysis calls (controller.py line 82 onwards),
and the classification result.  In the source, `analyze_audio` is only called
after the classification block completed without raising. -/
structure ControllerPhase where
  analysisInvoked : Bool
  classified : Except InputError (String × List String)
deriving DecidableEq, Repr

/-- Ordering of classification versus analysis in
`MomentumController.start_video_generation`: a classification error is raised
before any analysis service call is made. -/
def startVideoGenerationPhase1 (fs : List String) (file_paths : List String) : ControllerPhase :=
  match classifyInputs fs file_paths with
  | .error e => ⟨false, .error e⟩
  | .ok r => ⟨true, .ok r⟩

/-! ## Beat detection (momentum/components/audio_processor.py) -/

/-- `AudioProcessor.detect_beats` (audio_processor.py lines 26-65).  The
`librosa` collaborator is an oracle: `.ok beats` for a successful
load-and-track, `.error ()` for any exception it raises.  A missing file
returns `[]` before the collaborator is consulted; a collaborator exception is
caught and also yields `[]`.  The function is total: no branch raises. -/
def detect_beats (fs : List String) (librosa : Except Unit (List ℚ)) (audio_path : String) :
    List ℚ :=
  if fs.contains audio_path = false then []
  else
    match librosa with
    | .ok beat_times => beat_times
    | .error _ => []

/-! ## Analysis service (momentum/services/analysis_service.py) -/

/-- `AnalysisService.analyze_audio` (analysis_service.py lines 32-67).  Both
the missing-file branch and the simulation branch construct
`AudioAnalysis(beats=…, duration=…)`; `beats` and `duration` are not fields of
the `AudioAnalysis` model (its only field is `beat_timestamps`), and pydantic
ignores unknown keyword arguments, so every value this method returns has
`beat_timestamps = []`.  The simulation branch cannot raise (its arithmetic is
total and the construction ignores the extra keywords), and the generic
`except` clause would return the empty analysis in any case; the method never
raises. -/
def analyze_audio (fs : List String) (audio_path : String) : AudioAnalysis :=
  if fs.contains audio_path = false then { beat_timestamps := [] }
  else { beat_timestamps := [] }

/-- Python `dict` insertion `d[k] = v`: an existing key keeps its position and
gets the new value, a new key is appended. -/
def dictInsert {α : Type _} (d : List (String × α)) (k : String) (v : α) : List (String × α) :=
  if d.any (fun kv => kv.1 = k) then
    d.map (fun kv => if kv.1 = k then (k, v) else kv)
  else d ++ [(k, v)]

/-- Boolean success test for an `Except` result. -/
def isOkB {ε α : Type _} : Except ε α → Bool
  | .ok _ => true
  | .error _ => false

/-- The loop of `AnalysisService.analyze_videos` (analysis_service.py lines
85-101), accumulating the result dictionary.  Each path is checked for
existence (missing files are skipped with a warning); the collaborator call
`ai_client.analyze_video_content` is the oracle `analyze`; an exception from
it is caught and the loop continues with the next video. -/
def analyzeVideosLoop (fs : List String) (analyze : String → Except Unit VideoSceneAnalysis)
    (acc : List (String × VideoSceneAnalysis)) :
    List String → List (String × VideoSceneAnalysis)
  | [] => acc
  | p :: rest =>
    if fs.contains p = false then analyzeVideosLoop fs analyze acc rest
    else
      match analyze p with
      | .ok a => analyzeVideosLoop fs analyze (dictInsert acc p a) rest
      | .error _ => analyzeVideosLoop fs analyze acc rest

/-- `AnalysisService.analyze_videos` (analysis_service.py lines 69-104):
returns the dictionary mapping each successfully analyzed video path to its
analysis.  Total: every per-video failure is handled inside the loop. -/
def analyze_videos (fs : List String) (analyze : String → Except Unit VideoSceneAnalysis)
    (video_paths : List String) : List (String × VideoSceneAnalysis) :=
  analyzeVideosLoop fs analyze [] video_paths

/-- Events observable at the collaborator boundary of
`AnalysisService.analyze_videos`: the start (`issued`) and the completion
(`finished`) of one video's `analyze_video_content` call.  A call completes by
returning or by raising; both are handled, so a `finished` event follows every
`issued` event regardless of the oracle's verdict. -/
inductive AnalysisEvent where
  | issued (p : String)
  | finished (p : String)
deriving DecidableEq, Repr

/-- Collaborator-call trace of `AnalysisService.analyze_videos` (analysis
service lines 85-101).  The loop body `await self.ai_client.
analyze_video_content(video_path_str)` suspends until the call for the current
video has completed before the loop advances, so each video's `issued` and
`finished` events are adjacent and videos appear strictly in list order; a
missing file is skipped before the call and produces no events.  The trace
does not depend on whether each call succeeds: an exception is caught and the
loop continues. -/
def analyzeVideosTrace (fs : List String) : List String → List AnalysisEvent
  | [] => []
  | p :: rest =>
    (if fs.contains p then [.issued p, .finished p] else []) ++ analyzeVideosTrace fs rest

/-! ## Planner (momentum/services/director_service.py and
momentum/components/ai_client.py) -/

/-- JSON values, as produced by Python `json.loads`.  Numbers are modelled as
rationals. -/
inductive JValue where
  | null
  | bool (b : Bool)
  | num (q : ℚ)
  | str (s : String)
  | arr (xs : List JValue)
  | obj (fields : List (String × JValue))

/-- Key lookup in a parsed JSON object.  `json.loads` builds a `dict`, whose
keys are unique (a duplicated key in the source text keeps the last value);
for unique keys this first-match lookup coincides with `dict` access. -/
def jLookup (fields : List (String × JValue)) (k : String) : Option JValue :=
  (fields.find? (fun kv => kv.1 = k)).map (fun kv => kv.2)

/-- Pydantic coercion of a JSON value into a `str` field. -/
def asStr : JValue → Option String
  | .str s => some s
  | _ => none

/-- Pydantic coercion of a JSON value into a `float` field (JSON ints and
floats are accepted; other shapes are a `ValidationError`). -/
def asNum : JValue → Option ℚ
  | .num q => some q
  | _ => none

/-- Pydantic coercion of a JSON value into an `int` field (a float is accepted
only when it has no fractional part). -/
def asInt : JValue → Option Int
  | .num q => if q.den = 1 then some q.num else none
  | _ => none

/-- Pydantic validation of the `TextOverlay` model (momentum/models/
editing.py): `text`, `position`, `style` are required strings, `font_size` a
required int.  Extra keys are ignored (pydantic default). -/
def validateTextOverlay : JValue → Option TextOverlay
  | .obj fields => do
    let t ← jLookup fields "text" >>= asStr
    let sz ← jLookup fields "font_size" >>= asInt
    let position ← jLookup fields "position" >>= asStr
    let style ← jLookup fields "style" >>= asStr
    some ⟨t, sz, position, style⟩
  | _ => none

/-- Pydantic validation of the `Shot` model (momentum/models/editing.py):
`source_video` a required string, `start_time` and `end_time` required floats
with no relational constraint between them, `transition_to_next` defaulting to
"hard_cut", `text_overlay` an optional nested `TextOverlay` defaulting to
`None`. -/
def validateShot : JValue → Option Shot
  | .obj fields => do
    let sv ← jLookup fields "source_video" >>= asStr
    let st ← jLookup fields "start_time" >>= asNum
    let et ← jLookup fields "end_time" >>= asNum
    let tr ←
      match jLookup fields "transition_to_next" with
      | none => some "hard_cut"
      | some v => asStr v
    let ov ←
      match jLookup fields "text_overlay" with
      | none => some none
      | some .null => some none
      | some v => (validateTextOverlay v).map some
    some ⟨sv, st, et, tr, ov⟩
  | _ => none

/-- Pydantic validation of the `EditDecisionList` model
(momentum/models/editing.py) applied to a parsed JSON value, as performed by
`EditDecisionList(**json.loads(response_text))` in
`MultimodalAIClient.generate_edit_decision_list`: the top level must be an
object with a required `shots` list whose every element validates as a
`Shot`.  A non-object top level makes the `**` unpacking raise, which the
generic `except` clause turns into the same terminal failure. -/
def validateEDL : JValue → Option EditDecisionList
  | .obj fields => do
    let shotsJ ← jLookup fields "shots"
    match shotsJ with
    | .arr xs => (xs.mapM validateShot).map EditDecisionList.mk
    | _ => none
  | _ => none

/-- Whether `ps` is an initial segment of `cs`. -/
def leadsWith : List Char → List Char → Bool
  | _, [] => true
  | [], _ :: _ => false
  | c :: cs, p :: ps => c = p && leadsWith cs ps

/-- Whether `ps` is a final segment of `cs`. -/
def trailsWith (cs ps : List Char) : Bool :=
  leadsWith cs.reverse ps.reverse

/-- Python `str.strip()`: drop leading and trailing whitespace. -/
def trimChars (cs : List Char) : List Char :=
  ((cs.dropWhile Char.isWhitespace).reverse.dropWhile Char.isWhitespace).reverse

/-- Python `str.removeprefix`. -/
def pyRemoveFront (cs ps : List Char) : List Char :=
  if leadsWith cs ps then cs.drop ps.length else cs

/-- Python `str.removesuffix`. -/
def pyRemoveBack (cs ps : List Char) : List Char :=
  if trailsWith cs ps then cs.take (cs.length - ps.length) else cs

/-- The response-cleaning pipeline of
`MultimodalAIClient.generate_edit_decision_list` (components/ai_client.py line
157): `response.text.strip().removeprefix("```json").removesuffix("```").
strip()`. -/
def cleanFence (s : String) : String :=
  String.mk
    (trimChars (pyRemoveBack (pyRemoveFront (trimChars s.toList) "```json".toList) "```".toList))

/-- Error taxonomy of the planning layer, following the specification's
`PlanningError` kinds.  `emptyInput` stands for a rejection of an empty video
mapping before any outbound call, `invalidResponse` for an empty, unparsable
or schema-invalid model response, `transport` for an exception raised by the
collaborator call itself. -/
inductive PlanError where
  | emptyInput
  | invalidResponse
  | transport
deriving DecidableEq, Repr

/-- Result of one planner call: how many outbound requests were issued to the
generative-model collaborator, and the outcome. -/
structure PlannerResult where
  requestsIssued : Nat
  outcome : Except PlanError EditDecisionList
deriving DecidableEq, Repr

/-- `MultimodalAIClient.generate_edit_decision_list`
(components/ai_client.py lines 100-171), the client `DirectorService.
create_edit_plan` delegates to.  The method builds the prompt from
`video_analyses`, the audio analysis, the goal and the features (prompt text
does not affect control flow), then unconditionally awaits
`self.model.generate_content_async` — there is no check of `video_analyses`
before the call.  The collaborator is the oracle `modelResponse` (`.error ()`
for a raised exception); `parse` is the `json.loads` oracle on the cleaned
response text.  An empty cleaned response, a parse failure and a validation
failure each raise exactly once, with no second outbound request. -/
def generate_edit_decision_list (parse : String → Option JValue)
    (video_analyses : List (String × VideoSceneAnalysis))
    (modelResponse : Except Unit String) : PlannerResult :=
  match modelResponse with
  | .error _ => ⟨1, .error .transport⟩
  | .ok text =>
    let cleaned := cleanFence text
    if cleaned = "" then ⟨1, .error .invalidResponse⟩
    else
      match parse cleaned with
      | none => ⟨1, .error .invalidResponse⟩
      | some j =>
        match validateEDL j with
        | none => ⟨1, .error .invalidResponse⟩
        | some edl => ⟨1, .ok edl⟩

/-! ## Renderer (momentum/services/editor_service.py) -/

/-- File-system state seen by the renderer: the existing files and the
existing directories. -/
structure FS where
  files : List String
  dirs : List String
deriving DecidableEq, Repr

/-- The three external-tool stages of `EditorService.render_video`. -/
inductive RenderStage where
  | trim
  | concat
  | mux
deriving DecidableEq, Repr

/-- Error taxonomy of `EditorService.render_video`: `FileNotFoundError` for a
missing audio file (line 74), `AttributeError` for the `shot.video_path`
attribute read at line 88 (no `Shot` model of the repository declares a
`video_path` field), `ValueError` when no clip survived staging (line 145),
`RuntimeError` when an `ffmpeg` invocation of some stage fails (lines 138,
177, 209). -/
inductive RenderError where
  | audioNotFound (p : String)
  | attributeError
  | noValidClips
  | stageFailed (s : RenderStage)
deriving DecidableEq, Repr

/-- Zero-padded three-digit shot index, as in the Python format
`f"clip_{i:03d}.mp4"`. -/
def pad3 (n : Nat) : String :=
  let s := toString n
  if s.length ≥ 3 then s else String.mk (List.replicate (3 - s.length) '0') ++ s

/-- How the shot-staging loop can abort: `attrError` is the `AttributeError`
raised by the `shot.video_path` read at line 88, `toolFailed` the
`RuntimeError` raised when a shot's `ffmpeg` invocation exits non-zero
(line 138). -/
inductive StageAbort where
  | attrError
  | toolFailed
deriving DecidableEq, Repr

/-- Accumulator of the shot-staging loop of `EditorService.render_video`
(lines 87-141): the surviving intermediate clip paths in shot order, the
number of `ffmpeg` invocations so far, the files created inside the
workspace, and the exception (if any) that aborted the loop. -/
structure StageAcc where
  clips : List String
  calls : Nat
  made : List String
  aborted : Option StageAbort
deriving DecidableEq, Repr

/-- Pydantic attribute access on a `Shot`, restricted to its string-valued
fields: a declared field name returns that field's value, any other name
raises `AttributeError`.  The `Shot` model (momentum/models/editing.py lines
23-46) declares exactly `source_video`, `start_time`, `end_time`,
`transition_to_next` and `text_overlay`; the `Shot` of
momentum/domain/models.py has the same fields.  Neither declares
`video_path`. -/
def shotStrAttr (shot : Shot) (name : String) : Except Unit String :=
  if name = "source_video" then .ok shot.source_video
  else if name = "transition_to_next" then .ok shot.transition_to_next
  else .error ()

/-- The shot-staging loop of `EditorService.render_video` (lines 87-141),
carrying the running index `i` of `enumerate(edl.shots)`.  The body's first
statement (line 88) is `input_video_path = Path(shot.video_path)`: an
attribute read of `video_path`, a name no `Shot` model declares, so the read
raises `AttributeError` and aborts the loop at the first shot.  The rest of
the body — skip-with-warning when the read path does not exist, one `ffmpeg`
trim(+overlay) invocation (exit status `trimOk i`) writing the numbered clip
on success, `RuntimeError` aborting the loop on failure — is embedded as
written but is unreachable for actual `Shot` values. -/
def stageLoop (inputFiles : List String) (trimOk : Nat → Bool) (tempDir : String) :
    Nat → List Shot → StageAcc → StageAcc
  | _, [], acc => acc
  | i, shot :: rest, acc =>
    match shotStrAttr shot "video_path" with
    | .error _ => { acc with aborted := some .attrError }
    | .ok input_video_path =>
      if inputFiles.contains input_video_path = false then
        stageLoop inputFiles trimOk tempDir (i + 1) rest acc
      else
        let clip := tempDir ++ "/clip_" ++ pad3 i ++ ".mp4"
        if trimOk i then
          stageLoop inputFiles trimOk tempDir (i + 1) rest
            ⟨acc.clips ++ [clip], acc.calls + 1, acc.made ++ [clip], none⟩
        else
          ⟨acc.clips, acc.calls + 1, acc.made, some .toolFailed⟩

/-- The staging loop with the line-88 attribute read corrected to the `Shot`
model's declared field `source_video` — the one-line repair under which the
loop behaves as the method's docstring and log messages describe ("Input
video for shot i not found ... Skipping this shot", `ValueError` when no
valid clip remains).  Used to state what the code was intended to do at the
inputs where the faithful `stageLoop` raises `AttributeError`. -/
def stageLoopFixed (inputFiles : List String) (trimOk : Nat → Bool) (tempDir : String) :
    Nat → List Shot → StageAcc → StageAcc
  | _, [], acc => acc
  | i, shot :: rest, acc =>
    if inputFiles.contains shot.source_video = false then
      stageLoopFixed inputFiles trimOk tempDir (i + 1) rest acc
    else
      let clip := tempDir ++ "/clip_" ++ pad3 i ++ ".mp4"
      if trimOk i then
        stageLoopFixed inputFiles trimOk tempDir (i + 1) rest
          ⟨acc.clips ++ [clip], acc.calls + 1, acc.made ++ [clip], none⟩
      else
        ⟨acc.clips, acc.calls + 1, acc.made, some .toolFailed⟩

/-- The `finally` block of `EditorService.render_video` (lines 214-221):
when the workspace directory exists it is removed together with its
contents. -/
def cleanupFS (fs : FS) (tempDir : String) : FS :=
  if fs.dirs.contains tempDir then
    { files := fs.files.filter (fun f => leadsWith f.toList (tempDir ++ "/").toList = false)
      dirs := fs.dirs.filter (fun d => (d = tempDir : Bool) = false) }
  else fs

/-- Result of one `EditorService.render_video` call: the file system after
the call returned or raised, the number of external-tool invocations, and the
outcome. -/
structure RenderOutcome where
  fs : FS
  toolCalls : Nat
  result : Except RenderError String
deriving DecidableEq, Repr

/-- `EditorService.render_video` (editor_service.py lines 46-221).  The audio
existence check (line 72) precedes the `try` block, so a missing audio file
raises `FileNotFoundError` before the workspace is created and before any
tool runs.  Inside the `try`: the workspace `tempDir` is created (line 81,
`tempfile.mkdtemp` yields a fresh directory); the shots are staged in order —
for a nonempty shot list the staging loop raises `AttributeError` at its
first `shot.video_path` read (line 88) before any skip or tool call; if the
loop completed and no clip survived, `ValueError` (NoValidClips) is raised
(reachable only for an empty shot list); otherwise the concat list is written
and the concat and mux stages each run one `ffmpeg` invocation (oracles
`concatOk`, `muxOk`), any failure raising `RuntimeError`.  Whatever the exit
path, the `finally` block removes the workspace. -/
def render_video (fs : FS) (tempDir : String) (trimOk : Nat → Bool) (concatOk muxOk : Bool)
    (edl : EditDecisionList) (audio_path output_path : String) : RenderOutcome :=
  if fs.files.contains audio_path = false then ⟨fs, 0, .error (.audioNotFound audio_path)⟩
  else
    let fs1 : FS := { fs with dirs := fs.dirs ++ [tempDir] }
    let acc := stageLoop fs.files trimOk tempDir 0 edl.shots ⟨[], 0, [], none⟩
    let fs2 : FS := { fs1 with files := fs1.files ++ acc.made }
    match acc.aborted with
    | some .attrError => ⟨cleanupFS fs2 tempDir, acc.calls, .error .attributeError⟩
    | some .toolFailed => ⟨cleanupFS fs2 tempDir, acc.calls, .error (.stageFailed .trim)⟩
    | none =>
      if acc.clips.isEmpty then ⟨cleanupFS fs2 tempDir, acc.calls, .error .noValidClips⟩
      else
        let fs3 : FS := { fs2 with files := fs2.files ++ [tempDir ++ "/concat_list.txt"] }
        if concatOk = false then
          ⟨cleanupFS fs3 tempDir, acc.calls + 1, .error (.stageFailed .concat)⟩
        else
          let fs4 : FS :=
            { fs3 with files := fs3.files ++ [tempDir ++ "/concatenated_video.mp4"] }
          if muxOk = false then
            ⟨cleanupFS fs4 tempDir, acc.calls + 2, .error (.stageFailed .mux)⟩
          else
            ⟨cleanupFS { fs4 with files := fs4.files ++ [output_path] } tempDir,
              acc.calls + 2, .ok output_path⟩

/-- `EditorService.render_video` under the one-line repair of the staging
loop (`stageLoopFixed`, reading `shot.source_video` as the `Shot` model
declares): identical control flow otherwise.  This is the behavior the
method's docstring specifies — `FileNotFoundError` for missing audio,
skip-with-warning for a missing source, `ValueError` when no valid clip
remains, `RuntimeError` for a failed tool invocation — used to state the
intended outcome at the inputs where the shipped code raises
`AttributeError`. -/
def render_videoFixed (fs : FS) (tempDir : String) (trimOk : Nat → Bool)
    (concatOk muxOk : Bool) (edl : EditDecisionList) (audio_path output_path : String) :
    RenderOutcome :=
  if fs.files.contains audio_path = false then ⟨fs, 0, .error (.audioNotFound audio_path)⟩
  else
    let fs1 : FS := { fs with dirs := fs.dirs ++ [tempDir] }
    let acc := stageLoopFixed fs.files trimOk tempDir 0 edl.shots ⟨[], 0, [], none⟩
    let fs2 : FS := { fs1 with files := fs1.files ++ acc.made }
    match acc.aborted with
    | some _ => ⟨cleanupFS fs2 tempDir, acc.calls, .error (.stageFailed .trim)⟩
    | none =>
      if acc.clips.isEmpty then ⟨cleanupFS fs2 tempDir, acc.calls, .error .noValidClips⟩
      else
        let fs3 : FS := { fs2 with files := fs2.files ++ [tempDir ++ "/concat_list.txt"] }
        if concatOk = false then
          ⟨cleanupFS fs3 tempDir, acc.calls + 1, .error (.stageFailed .concat)⟩
        else
          let fs4 : FS :=
            { fs3 with files := fs3.files ++ [tempDir ++ "/concatenated_video.mp4"] }
          if muxOk = false then
            ⟨cleanupFS fs4 tempDir, acc.calls + 2, .error (.stageFailed .mux)⟩
          else
            ⟨cleanupFS { fs4 with files := fs4.files ++ [output_path] } tempDir,
              acc.calls + 2, .ok output_path⟩

/-! ## Supporting lemmas -/

/-- A path that fails the existence check makes the classification loop abort
with `missingFile` at some missing path, whatever the accumulators hold. -/
theorem classifyLoop_missing (fs : List String) (paths : List String) :
    ∀ (a : Option String) (vs : List String),
      (∃ p ∈ paths, fs.contains p = false) →
      ∃ q, fs.contains q = false ∧ classifyLoop fs a vs paths = .error (.missingFile q) := by
  induction paths with
  | nil => intro a vs h; simp at h
  | cons p rest ih =>
    intro a vs h
    by_cases hp : fs.contains p = false
    · refine ⟨p, hp, ?_⟩
      simp only [classifyLoop]
      rw [hp]
      simp
    · have hpt : fs.contains p = true := by
        cases hcp : fs.contains p with
        | false => exact absurd hcp hp
        | true => rfl
      have hrest : ∃ q ∈ rest, fs.contains q = false := by
        rcases h with ⟨q, hq, hqf⟩
        rcases List.mem_cons.mp hq with rfl | hmem
        · exact absurd hqf hp
        · exact ⟨q, hmem, hqf⟩
      simp only [classifyLoop, hpt]
      cases hk : kindOf p with
      | audio =>
        cases a with
        | some x => simpa using ih _ vs hrest
        | none => simpa using ih _ vs hrest
      | video => simpa using ih a _ hrest
      | other => simpa using ih a vs hrest

/-- When every path exists, the classification loop returns: the already-held
audio (or else the first audio-extension path), and the held videos followed
by the video-extension paths in input order. -/
theorem classifyLoop_all_exist (fs : List String) (paths : List String) :
    ∀ (a : Option String) (vs : List String),
      (∀ p ∈ paths, fs.contains p = true) →
      classifyLoop fs a vs paths =
        .ok (a.orElse (fun _ => paths.find? (fun p => kindOf p = MediaKind.audio)),
          vs ++ paths.filter (fun p => kindOf p = MediaKind.video)) := by
  induction paths with
  | nil =>
    intro a vs _
    cases a <;> simp [classifyLoop, Option.orElse]
  | cons p rest ih =>
    intro a vs hex
    have hpt : fs.contains p = true := hex p (List.mem_cons_self p rest)
    have hrest : ∀ q ∈ rest, fs.contains q = true := fun q hq => hex q (List.mem_cons_of_mem p hq)
    simp only [classifyLoop, hpt]
    cases hk : kindOf p with
    | audio =>
      cases a with
      | some x =>
        rw [ih (some x) vs hrest]
        simp [List.find?, List.filter, hk, Option.orElse]
      | none =>
        rw [ih (some p) vs hrest]
        simp [List.find?, List.filter, hk, Option.orElse]
    | video =>
      rw [ih a (vs ++ [p]) hrest]
      simp [List.find?, List.filter, hk]
    | other =>
      rw [ih a vs hrest]
      simp [List.find?, List.filter, hk]

/-! ## Claim theorems -/

/-- C5.  Any input list containing a non-existent path makes
`start_video_generation` fail with `InputError(MissingFile)` during
classification, before any analysis service call is issued and before the
`NoAudioFound`/`NoVideoFound` count checks run; in particular the input
`[a.wav, v1.mp4]` with `v1.mp4` missing fails at the `MissingFile` stage, not
with `NoVideoFound`. -/
theorem missing_input_fails_before_analysis :
    (∀ (fs paths : List String), (∃ p ∈ paths, fs.contains p = false) →
      ∃ q, fs.contains q = false ∧
        classifyInputs fs paths = .error (.missingFile q) ∧
        startVideoGenerationPhase1 fs paths = ⟨false, .error (.missingFile q)⟩) ∧
    startVideoGenerationPhase1 ["a.wav"] ["a.wav", "v1.mp4"] =
      ⟨false, .error (.missingFile "v1.mp4")⟩ := by
  refine ⟨?_, by decide⟩
  intro fs paths h
  obtain ⟨q, hq, hloop⟩ := classifyLoop_missing fs paths none [] h
  have hci : classifyInputs fs paths = .error (.missingFile q) := by
    simp [classifyInputs, hloop, Except.bind]
  exact ⟨q, hq, hci, by simp [startVideoGenerationPhase1, hci]⟩

/-- Witness for C5: a concrete run with a single missing input fails with
`missingFile`. -/
theorem missing_input_fails_before_analysis_witness :
    ∃ q, List.contains [] q = false ∧
      classifyInputs [] ["x.mp4"] = .error (.missingFile q) ∧
      startVideoGenerationPhase1 [] ["x.mp4"] = ⟨false, .error (.missingFile q)⟩ :=
  missing_input_fails_before_analysis.1 [] ["x.mp4"] ⟨"x.mp4", by decide, by decide⟩

/-- C7.  Over existing files: exactly one audio-extension input and zero
video-extension inputs fail classification with `NoVideoFound`; one or more
video-extension inputs and zero audio-extension inputs fail with
`NoAudioFound`. -/
theorem classifier_count_checks (fs paths : List String)
    (hex : ∀ p ∈ paths, fs.contains p = true) :
    ((paths.countP (fun p => kindOf p = MediaKind.audio) = 1 ∧
      paths.countP (fun p => kindOf p = MediaKind.video) = 0) →
        classifyInputs fs paths = .error .noVideoFound) ∧
    ((paths.countP (fun p => kindOf p = MediaKind.audio) = 0 ∧
      0 < paths.countP (fun p => kindOf p = MediaKind.video)) →
        classifyInputs fs paths = .error .noAudioFound) := by
  have hloop := classifyLoop_all_exist fs paths none [] hex
  constructor
  · rintro ⟨ha, hv⟩
    have hfind : (paths.find? (fun p => kindOf p = MediaKind.audio)).isSome := by
      rw [List.find?_isSome]
      have : 0 < paths.countP (fun p => kindOf p = MediaKind.audio) := by omega
      rw [List.countP_pos_iff] at this
      exact this
    obtain ⟨ap, hap⟩ := Option.isSome_iff_exists.mp hfind
    have hfil : paths.filter (fun p => kindOf p = MediaKind.video) = [] := by
      rw [List.filter_eq_nil_iff]
      intro p hp
      rw [List.countP_eq_zero] at hv
      exact hv p hp
    simp [classifyInputs, hloop, Except.bind, Option.orElse, hap, hfil]
  · rintro ⟨ha, hv⟩
    have hfind : paths.find? (fun p => kindOf p = MediaKind.audio) = none := by
      rw [List.find?_eq_none]
      intro p hp
      rw [List.countP_eq_zero] at ha
      exact ha p hp
    simp [classifyInputs, hloop, Except.bind, Option.orElse, hfind]

/-- Witness for C7: concrete one-audio-no-video and one-video-no-audio runs. -/
theorem classifier_count_checks_witness :
    classifyInputs ["a.wav"] ["a.wav"] = .error .noVideoFound ∧
    classifyInputs ["v.mp4"] ["v.mp4"] = .error .noAudioFound :=
  ⟨(classifier_count_checks ["a.wav"] ["a.wav"] (by decide)).1 (by decide),
   (classifier_count_checks ["v.mp4"] ["v.mp4"] (by decide)).2 (by decide)⟩

/-- C8.  Over existing files with at least two audio-extension inputs and at
least one video-extension input, classification succeeds (later audio files
are only warned about, never an error), keeps the first audio-extension input
in input order, and returns all video-extension inputs. -/
theorem duplicate_audio_keeps_first (fs paths : List String)
    (hex : ∀ p ∈ paths, fs.contains p = true)
    (haud : 2 ≤ paths.countP (fun p => kindOf p = MediaKind.audio))
    (hvid : 0 < paths.countP (fun p => kindOf p = MediaKind.video)) :
    ∃ a, paths.find? (fun p => kindOf p = MediaKind.audio) = some a ∧
      classifyInputs fs paths =
        .ok (a, paths.filter (fun p => kindOf p = MediaKind.video)) := by
  have hloop := classifyLoop_all_exist fs paths none [] hex
  have hfind : (paths.find? (fun p => kindOf p = MediaKind.audio)).isSome := by
    rw [List.find?_isSome]
    have : 0 < paths.countP (fun p => kindOf p = MediaKind.audio) := by omega
    rw [List.countP_pos_iff] at this
    exact this
  obtain ⟨ap, hap⟩ := Option.isSome_iff_exists.mp hfind
  have hne : paths.filter (fun p => kindOf p = MediaKind.video) ≠ [] := by
    intro hnil
    rw [List.filter_eq_nil_iff] at hnil
    rw [List.countP_pos_iff] at hvid
    obtain ⟨p, hp, hkp⟩ := hvid
    exact hnil p hp (by simpa using hkp)
  refine ⟨ap, hap, ?_⟩
  simp [classifyInputs, hloop, Except.bind, Option.orElse, hap, List.isEmpty_iff, hne]

/-- Witness for C8: two audio files and one video file classify to the first
audio file. -/
theorem duplicate_audio_keeps_first_witness :
    ∃ a, List.find? (fun p => kindOf p = MediaKind.audio) ["a.wav", "b.mp3", "v.mp4"] = some a ∧
      classifyInputs ["a.wav", "b.mp3", "v.mp4"] ["a.wav", "b.mp3", "v.mp4"] =
        .ok (a, List.filter (fun p => kindOf p = MediaKind.video) ["a.wav", "b.mp3", "v.mp4"]) :=
  duplicate_audio_keeps_first ["a.wav", "b.mp3", "v.mp4"] ["a.wav", "b.mp3", "v.mp4"]
    (by decide) (by decide) (by decide)

/-- C6.  Audio analysis is never fatal: `analyze_audio` is a total function
(no branch raises) and returns the empty `AudioAnalysis` when the file is
missing, and `detect_beats` is total, returning `[]` when the file is missing
and `[]` when the `librosa` collaborator raises. -/
theorem audio_failure_never_fatal (fs : List String) (p : String) (r : Except Unit (List ℚ)) :
    (fs.contains p = false →
      analyze_audio fs p = { beat_timestamps := [] } ∧ detect_beats fs r p = []) ∧
    (r = .error () → detect_beats fs r p = []) := by
  constructor
  · intro h
    constructor
    · simp [analyze_audio, h]
    · simp only [detect_beats]
      rw [h]
      simp
  · intro h
    subst h
    simp only [detect_beats]
    split <;> rfl

/-- Witness for C6: a missing audio file yields the empty analysis and a
raising detector yields the empty beat list. -/
theorem audio_failure_never_fatal_witness :
    analyze_audio [] "missing.wav" = { beat_timestamps := [] } ∧
    detect_beats [] (.error ()) "missing.wav" = [] :=
  ⟨((audio_failure_never_fatal [] "missing.wav" (.error ())).1 rfl).1,
   (audio_failure_never_fatal [] "missing.wav" (.error ())).2 rfl⟩

/-- Inserting a key absent from the dictionary appends the binding. -/
theorem dictInsert_of_not_mem {α : Type _} (d : List (String × α)) (k : String) (v : α)
    (h : d.any (fun kv => kv.1 = k) = false) : dictInsert d k v = d ++ [(k, v)] := by
  simp only [dictInsert, h]
  simp

/-- The per-path verdict of `analyze_videos`: the video exists and the
collaborator produced an analysis for it. -/
def videoSucceeds (fs : List String) (analyze : String → Except Unit VideoSceneAnalysis)
    (p : String) : Bool :=
  fs.contains p && isOkB (analyze p)

/-- The contribution of one path to the `analyze_videos` dictionary. -/
def videoEntry (fs : List String) (analyze : String → Except Unit VideoSceneAnalysis)
    (p : String) : Option (String × VideoSceneAnalysis) :=
  if fs.contains p then
    match analyze p with
    | .ok a => some (p, a)
    | .error _ => none
  else none

/-- Characterization of the `analyze_videos` loop for duplicate-free path
lists: it appends, to the accumulator, one entry per succeeding path in input
order. -/
theorem analyzeVideosLoop_eq (fs : List String) (analyze : String → Except Unit VideoSceneAnalysis) :
    ∀ (paths : List String) (acc : List (String × VideoSceneAnalysis)),
      paths.Nodup →
      (∀ p ∈ paths, acc.any (fun kv => kv.1 = p) = false) →
      analyzeVideosLoop fs analyze acc paths = acc ++ paths.filterMap (videoEntry fs analyze) := by
  intro paths
  induction paths with
  | nil => intro acc _ _; simp [analyzeVideosLoop]
  | cons p rest ih =>
    intro acc hnd hdisj
    have hndr : rest.Nodup := (List.nodup_cons.mp hnd).2
    have hpnr : p ∉ rest := (List.nodup_cons.mp hnd).1
    by_cases hf : p ∈ fs
    · cases ha : analyze p with
      | ok a =>
        have hins : dictInsert acc p a = acc ++ [(p, a)] :=
          dictInsert_of_not_mem acc p a (hdisj p (List.mem_cons_self p rest))
        have hstep : analyzeVideosLoop fs analyze acc (p :: rest) =
            analyzeVideosLoop fs analyze (dictInsert acc p a) rest := by
          simp [analyzeVideosLoop, hf, ha]
        have hdisj2 : ∀ q ∈ rest, ((acc ++ [(p, a)]).any (fun kv => kv.1 = q)) = false := by
          intro q hq
          have hq1 : acc.any (fun kv => kv.1 = q) = false :=
            hdisj q (List.mem_cons_of_mem p hq)
          have hq2 : p ≠ q := fun hpq => hpnr (hpq ▸ hq)
          simp [List.any_append, hq1, hq2]
        rw [hstep, hins, ih (acc ++ [(p, a)]) hndr hdisj2]
        simp [List.filterMap_cons, videoEntry, hf, ha]
      | error e =>
        have hstep : analyzeVideosLoop fs analyze acc (p :: rest) =
            analyzeVideosLoop fs analyze acc rest := by
          simp [analyzeVideosLoop, hf, ha]
        rw [hstep, ih acc hndr (fun q hq => hdisj q (List.mem_cons_of_mem p hq))]
        simp [List.filterMap_cons, videoEntry, hf, ha]
    · have hstep : analyzeVideosLoop fs analyze acc (p :: rest) =
          analyzeVideosLoop fs analyze acc rest := by
        simp [analyzeVideosLoop, hf]
      rw [hstep, ih acc hndr (fun q hq => hdisj q (List.mem_cons_of_mem p hq))]
      simp [List.filterMap_cons, videoEntry, hf]

/-- Keys of the `analyze_videos` entries are exactly the succeeding paths in
input order. -/
theorem filterMap_videoEntry_keys (fs : List String)
    (analyze : String → Except Unit VideoSceneAnalysis) :
    ∀ paths : List String,
      (paths.filterMap (videoEntry fs analyze)).map Prod.fst =
        paths.filter (videoSucceeds fs analyze) := by
  intro paths
  induction paths with
  | nil => simp
  | cons p rest ih =>
    by_cases hf : p ∈ fs
    · cases ha : analyze p with
      | ok a => simp [videoEntry, videoSucceeds, hf, ha, isOkB, ih]
      | error e => simp [videoEntry, videoSucceeds, hf, ha, isOkB, ih]
    · simp [videoEntry, videoSucceeds, hf, ih]

/-- C4.  For a duplicate-free list of video paths, `analyze_videos` returns
(it is a total function: every per-video failure is handled inside the loop)
a dictionary holding exactly one entry per successfully analyzed video, keyed
by source path in input order, with failed videos omitted entirely; its size
is the input length minus the number of failing videos. -/
theorem analyze_videos_partial_results (fs : List String)
    (analyze : String → Except Unit VideoSceneAnalysis) (video_paths : List String)
    (hnd : video_paths.Nodup) :
    analyze_videos fs analyze video_paths = video_paths.filterMap (videoEntry fs analyze) ∧
    (analyze_videos fs analyze video_paths).map Prod.fst =
      video_paths.filter (videoSucceeds fs analyze) ∧
    (analyze_videos fs analyze video_paths).length +
      video_paths.countP (fun p => !(videoSucceeds fs analyze p)) = video_paths.length := by
  have h1 : analyze_videos fs analyze video_paths =
      video_paths.filterMap (videoEntry fs analyze) :=
    analyzeVideosLoop_eq fs analyze video_paths [] hnd (by simp)
  have h2 : (analyze_videos fs analyze video_paths).map Prod.fst =
      video_paths.filter (videoSucceeds fs analyze) := by
    rw [h1, filterMap_videoEntry_keys]
  refine ⟨h1, h2, ?_⟩
  have hlen : (analyze_videos fs analyze video_paths).length =
      (video_paths.filter (videoSucceeds fs analyze)).length := by
    rw [← h2, List.length_map]
  rw [hlen, ← List.countP_eq_length_filter]
  have := (List.length_eq_countP_add_countP (videoSucceeds fs analyze) video_paths).symm
  simpa using this

/-- A fixed collaborator oracle for concrete analysis runs: `v1.mp4`
analyzes successfully, every other path raises. -/
def vOracle : String → Except Unit VideoSceneAnalysis := fun p =>
  if p = "v1.mp4" then .ok ⟨"a clip", 1⟩ else .error ()

/-- Witness for C4: three inputs of which two fail (one missing file, one
collaborator error) yield a one-entry mapping. -/
theorem analyze_videos_partial_results_witness :
    (analyze_videos ["v1.mp4", "v2.mp4"] vOracle ["v1.mp4", "v2.mp4", "v3.mp4"]).length +
      List.countP (fun p => !(videoSucceeds ["v1.mp4", "v2.mp4"] vOracle p))
        ["v1.mp4", "v2.mp4", "v3.mp4"] = 3 :=
  (analyze_videos_partial_results ["v1.mp4", "v2.mp4"] vOracle
    ["v1.mp4", "v2.mp4", "v3.mp4"] (by decide)).2.2

/-- Truth test for an `issued` event. -/
def isIssuedEv : AnalysisEvent → Bool
  | .issued _ => true
  | .finished _ => false

/-- Truth test for a `finished` event. -/
def isFinishedEv : AnalysisEvent → Bool
  | .issued _ => false
  | .finished _ => true

/-- Formalization of "all per-video analyses are issued together": in the
collaborator-call trace, every `issued` event precedes every `finished`
event, i.e. the trace is a block of issues followed by a block of
completions. -/
def allIssuedFirst (tr : List AnalysisEvent) : Bool :=
  (tr.dropWhile isIssuedEv).all isFinishedEv

/-- Every existing video in the list gets its analysis issued and completed,
wherever it sits and regardless of other videos' outcomes. -/
theorem traceEventsOfMem (fs : List String) :
    ∀ (paths : List String) (r : String), r ∈ paths → fs.contains r = true →
      AnalysisEvent.issued r ∈ analyzeVideosTrace fs paths ∧
      AnalysisEvent.finished r ∈ analyzeVideosTrace fs paths := by
  intro paths
  induction paths with
  | nil => intro r hr _; simp at hr
  | cons p rest ih =>
    intro r hr hc
    rcases List.mem_cons.mp hr with rfl | hmem
    · have hm : r ∈ fs := by simpa using hc
      constructor <;> simp [analyzeVideosTrace, hm]
    · constructor
      · exact List.mem_append_right _ (ih r hmem hc).1
      · exact List.mem_append_right _ (ih r hmem hc).2

/-- The analysis of an earlier existing video finishes before the analysis of
any later existing video is issued. -/
theorem analyzeVideosTraceSequential (fs : List String) :
    ∀ (paths1 : List String) (p : String) (paths2 : List String) (q : String),
      fs.contains p = true → fs.contains q = true → q ∈ paths2 →
      ∃ A B, analyzeVideosTrace fs (paths1 ++ p :: paths2) =
          A ++ AnalysisEvent.finished p :: B ∧
        AnalysisEvent.issued q ∈ B := by
  intro paths1
  induction paths1 with
  | nil =>
    intro p paths2 q hp hq hqm
    have hm : p ∈ fs := by simpa using hp
    refine ⟨[.issued p], analyzeVideosTrace fs paths2, ?_, ?_⟩
    · simp [analyzeVideosTrace, hm]
    · exact (traceEventsOfMem fs paths2 q hqm hq).1
  | cons r rest ih =>
    intro p paths2 q hp hq hqm
    obtain ⟨A, B, hAB, hqB⟩ := ih p paths2 q hp hq hqm
    refine ⟨(if fs.contains r then [.issued r, .finished r] else []) ++ A, B, ?_, hqB⟩
    simp [analyzeVideosTrace, hAB]

/-- C9 counterexample: with two existing videos, the collaborator-call trace
of `analyze_videos` is not a block of issues followed by completions — the
first video's call completes before the second is issued, so the analyses are
not issued together. -/
theorem analyze_videos_not_issued_together :
    allIssuedFirst (analyzeVideosTrace ["v1.mp4", "v2.mp4"] ["v1.mp4", "v2.mp4"]) = false ∧
    analyzeVideosTrace ["v1.mp4", "v2.mp4"] ["v1.mp4", "v2.mp4"] =
      [.issued "v1.mp4", .finished "v1.mp4", .issued "v2.mp4", .finished "v2.mp4"] := by
  constructor
  · decide
  · decide

/-- C9, amended.  `analyze_videos` issues the per-video analyses
sequentially, not together: every existing video's call is issued and awaited
to completion (position and other videos' failures notwithstanding — the
trace does not depend on the per-video outcomes, so no failure cancels or
skips a later video), and an earlier existing video's call finishes before
any later existing video's call is issued. -/
theorem analyze_videos_sequential_contract :
    (∀ (fs paths : List String) (r : String), r ∈ paths → fs.contains r = true →
      AnalysisEvent.issued r ∈ analyzeVideosTrace fs paths ∧
      AnalysisEvent.finished r ∈ analyzeVideosTrace fs paths) ∧
    (∀ (fs paths1 : List String) (p : String) (paths2 : List String) (q : String),
      fs.contains p = true → fs.contains q = true → q ∈ paths2 →
      ∃ A B, analyzeVideosTrace fs (paths1 ++ p :: paths2) =
          A ++ AnalysisEvent.finished p :: B ∧
        AnalysisEvent.issued q ∈ B) :=
  ⟨traceEventsOfMem, analyzeVideosTraceSequential⟩

/-- Witness for the amended C9: in a concrete two-video run, both videos'
calls appear in the trace and the first finishes before the second is
issued. -/
theorem analyze_videos_sequential_contract_witness :
    (AnalysisEvent.issued "v2.mp4" ∈
        analyzeVideosTrace ["v1.mp4", "v2.mp4"] ["v1.mp4", "v2.mp4"] ∧
      AnalysisEvent.finished "v2.mp4" ∈
        analyzeVideosTrace ["v1.mp4", "v2.mp4"] ["v1.mp4", "v2.mp4"]) ∧
    (∃ A B, analyzeVideosTrace ["v1.mp4", "v2.mp4"] ([] ++ "v1.mp4" :: ["v2.mp4"]) =
        A ++ AnalysisEvent.finished "v1.mp4" :: B ∧
      AnalysisEvent.issued "v2.mp4" ∈ B) :=
  ⟨analyze_videos_sequential_contract.1 ["v1.mp4", "v2.mp4"] ["v1.mp4", "v2.mp4"] "v2.mp4"
      (by decide) (by decide),
    analyze_videos_sequential_contract.2 ["v1.mp4", "v2.mp4"] [] "v1.mp4" ["v2.mp4"] "v2.mp4"
      (by decide) (by decide) (by decide)⟩

/-- A fixed `json.loads` oracle for concrete planner runs: the text `RESP`
parses to an EDL object whose single shot has `end_time` strictly below
`start_time`; everything else fails to parse. -/
def edlParseOracle : String → Option JValue := fun s =>
  if s = "RESP" then
    some (.obj [("shots", .arr [.obj [("source_video", .str "v.mp4"),
      ("start_time", .num 5), ("end_time", .num 1)]])])
  else none

/-- C1 counterexample: a concrete call of the planner's EDL generation with
an empty video-analyses mapping issues one outbound request to the
generative-model collaborator and does not fail with
`PlanningError(EmptyInput)` — it even succeeds when the model response is a
valid EDL. -/
theorem planner_empty_mapping_counterexample :
    (generate_edit_decision_list edlParseOracle [] (.ok "RESP")).requestsIssued = 1 ∧
    (generate_edit_decision_list edlParseOracle [] (.ok "RESP")).outcome =
      Except.ok ⟨[⟨"v.mp4", 5, 1, "hard_cut", none⟩]⟩ := by
  constructor <;> decide

/-- C1, amended.  The planner's EDL generation performs no empty-mapping
check: every call — with an empty video-analyses mapping as with any other —
issues exactly one outbound request to the generative-model collaborator and
never fails with `PlanningError(EmptyInput)`. -/
theorem planner_no_empty_input_check (parse : String → Option JValue)
    (video_analyses : List (String × VideoSceneAnalysis)) (resp : Except Unit String) :
    (generate_edit_decision_list parse video_analyses resp).requestsIssued = 1 ∧
    (generate_edit_decision_list parse video_analyses resp).outcome ≠
      Except.error PlanError.emptyInput := by
  cases resp with
  | error e => exact ⟨rfl, by simp [generate_edit_decision_list]⟩
  | ok text =>
    simp only [generate_edit_decision_list]
    by_cases h : cleanFence text = ""
    · simp [h]
    · simp only [if_neg h]
      cases hp : parse (cleanFence text) with
      | none => simp
      | some j =>
        cases hv : validateEDL j with
        | none => simp [hv]
        | some edl => simp [hv]

/-- Witness for the amended C1: a concrete empty-mapping call issues one
outbound request and does not fail with `EmptyInput`. -/
theorem planner_no_empty_input_check_witness :
    (generate_edit_decision_list edlParseOracle [] (.ok "garbage")).requestsIssued = 1 ∧
    (generate_edit_decision_list edlParseOracle [] (.ok "garbage")).outcome ≠
      Except.error PlanError.emptyInput :=
  planner_no_empty_input_check edlParseOracle [] (.ok "garbage")

/-- C2 counterexample: the planner's validation does not check
`endTime > startTime` — a model response whose only shot has
`end_time = 1 < 5 = start_time` passes validation and is returned as a
successful EDL instead of raising `PlanningError(InvalidResponse)`. -/
theorem planner_range_validation_counterexample :
    (generate_edit_decision_list edlParseOracle [] (.ok "RESP")).outcome =
      Except.ok ⟨[⟨"v.mp4", 5, 1, "hard_cut", none⟩]⟩ ∧
    (⟨"v.mp4", 5, 1, "hard_cut", none⟩ : Shot).end_time <
      (⟨"v.mp4", 5, 1, "hard_cut", none⟩ : Shot).start_time := by
  constructor <;> decide

/-- C2, amended.  For every raw model response the planner strips optional
code-fence markers, parses the result as JSON and validates it against the
EDL schema (field presence and types only — the numeric range
`endTime > startTime` is not checked); an empty cleaned response, a parse
failure or a validation failure each yield a terminal failure
(`InvalidResponse`), a validated response is returned as the EDL, and exactly
one outbound request is issued in every case — no retry is attempted at this
layer. -/
theorem planner_response_validation (parse : String → Option JValue)
    (va : List (String × VideoSceneAnalysis)) (text : String) :
    (generate_edit_decision_list parse va (.ok text)).requestsIssued = 1 ∧
    (cleanFence text = "" →
      (generate_edit_decision_list parse va (.ok text)).outcome =
        .error .invalidResponse) ∧
    (parse (cleanFence text) = none → cleanFence text ≠ "" →
      (generate_edit_decision_list parse va (.ok text)).outcome =
        .error .invalidResponse) ∧
    (∀ j, parse (cleanFence text) = some j → validateEDL j = none → cleanFence text ≠ "" →
      (generate_edit_decision_list parse va (.ok text)).outcome =
        .error .invalidResponse) ∧
    (∀ j edl, parse (cleanFence text) = some j → validateEDL j = some edl →
      cleanFence text ≠ "" →
      (generate_edit_decision_list parse va (.ok text)).outcome = .ok edl) := by
  refine ⟨?_, ?_, ?_, ?_, ?_⟩
  · simp only [generate_edit_decision_list]
    by_cases h : cleanFence text = ""
    · simp [h]
    · simp only [if_neg h]
      cases hp : parse (cleanFence text) with
      | none => simp
      | some j =>
        cases hv : validateEDL j with
        | none => simp [hv]
        | some edl => simp [hv]
  · intro h
    simp [generate_edit_decision_list, h]
  · intro hp h
    simp [generate_edit_decision_list, h, hp]
  · intro j hp hv h
    simp [generate_edit_decision_list, h, hp, hv]
  · intro j edl hp hv h
    simp [generate_edit_decision_list, h, hp, hv]

/-- Witness for the amended C2: a concrete unparsable response is a terminal
`InvalidResponse`, and a concrete fenced valid response is returned as the
EDL. -/
theorem planner_response_validation_witness :
    (generate_edit_decision_list edlParseOracle [] (.ok "garbage")).outcome =
      .error .invalidResponse ∧
    (generate_edit_decision_list edlParseOracle [] (.ok " ```json RESP``` ")).outcome =
      .ok ⟨[⟨"v.mp4", 5, 1, "hard_cut", none⟩]⟩ :=
  ⟨(planner_response_validation edlParseOracle [] "garbage").2.2.1 rfl (by decide),
   (planner_response_validation edlParseOracle [] " ```json RESP``` ").2.2.2.2
      (.obj [("shots", .arr [.obj [("source_video", .str "v.mp4"),
        ("start_time", .num 5), ("end_time", .num 1)]])])
      ⟨[⟨"v.mp4", 5, 1, "hard_cut", none⟩]⟩ rfl rfl (by decide)⟩

/-- When every shot's source video is missing, the staging loop performs no
tool call and leaves the accumulator untouched. -/
theorem stageLoopFixed_all_missing (inputFiles : List String) (trimOk : Nat → Bool)
    (tempDir : String) :
    ∀ (shots : List Shot) (i : Nat) (acc : StageAcc),
      (∀ s ∈ shots, inputFiles.contains s.source_video = false) →
      stageLoopFixed inputFiles trimOk tempDir i shots acc = acc := by
  intro shots
  induction shots with
  | nil => intro i acc _; rfl
  | cons s rest ih =>
    intro i acc h
    have hs : inputFiles.contains s.source_video = false := h s (List.mem_cons_self s rest)
    have hm : s.source_video ∉ inputFiles := by simpa using hs
    have hstep : stageLoopFixed inputFiles trimOk tempDir i (s :: rest) acc =
        stageLoopFixed inputFiles trimOk tempDir (i + 1) rest acc := by
      simp [stageLoopFixed, hm]
    rw [hstep]
    exact ih (i + 1) acc (fun q hq => h q (List.mem_cons_of_mem s hq))

/-- Reading `video_path` from a shot raises `AttributeError`: it is not a
declared field of the `Shot` model. -/
theorem shotStrAttr_video_path (shot : Shot) : shotStrAttr shot "video_path" = .error () := rfl

/-- With a nonempty shot list, the staging loop aborts at its first shot with
the `AttributeError` from the `shot.video_path` read, before any existence
check or tool invocation. -/
theorem stageLoop_head_attr_error (inputFiles : List String) (trimOk : Nat → Bool)
    (tempDir : String) (i : Nat) (s : Shot) (rest : List Shot) (acc : StageAcc) :
    stageLoop inputFiles trimOk tempDir i (s :: rest) acc =
      { acc with aborted := some .attrError } := by
  simp [stageLoop, shotStrAttr_video_path]

/-- The workspace cleanup leaves no workspace directory behind, whatever the
file-system state was. -/
theorem cleanupFS_no_tempdir (fs : FS) (tempDir : String) :
    (cleanupFS fs tempDir).dirs.contains tempDir = false := by
  cases hc : fs.dirs.contains tempDir with
  | true =>
    have hnot : tempDir ∉ fs.dirs.filter (fun d => (decide (d = tempDir)) = false) := by
      intro hmem
      have h2 := (List.mem_filter.mp hmem).2
      simp at h2
    simp only [cleanupFS, hc]
    simpa using hnot
  | false =>
    simp only [cleanupFS, hc]
    simpa using hc

/-- C3 (code bug).  The claim describes what editor_service.py's docstring
and log messages specify: a missing-source shot is "skipped" and an all-miss
EDL fails with `ValueError` (NoValidClips).  The shipped code cannot do
this: line 88 reads `shot.video_path`, an attribute no `Shot` model declares
(the field is `source_video`; the docstring promises only
`FileNotFoundError`/`RuntimeError`/`ValueError`, never `AttributeError`), so
for every EDL with at least one shot — in particular one whose every shot
references a non-existent source — the call raises `AttributeError` at the
first shot, with zero tool invocations, and `NoValidClips` is unreachable.
The `finally` cleanup still removes the workspace on this path.  Under the
one-line repair (`render_videoFixed`, reading `source_video`), the claim's
property holds exactly: `NoValidClips`, and the workspace is gone. -/
theorem render_all_sources_missing_attribute_error (fs : FS) (tempDir : String)
    (trimOk : Nat → Bool) (concatOk muxOk : Bool) (edl : EditDecisionList)
    (audio_path output_path : String)
    (ha : fs.files.contains audio_path = true)
    (hne : edl.shots ≠ [])
    (hs : ∀ s ∈ edl.shots, fs.files.contains s.source_video = false) :
    (render_video fs tempDir trimOk concatOk muxOk edl audio_path output_path).result =
      .error .attributeError ∧
    (render_video fs tempDir trimOk concatOk muxOk edl audio_path output_path).toolCalls = 0 ∧
    ((render_video fs tempDir trimOk concatOk muxOk edl audio_path
        output_path).fs.dirs.contains tempDir) = false ∧
    (render_videoFixed fs tempDir trimOk concatOk muxOk edl audio_path output_path).result =
      .error .noValidClips ∧
    ((render_videoFixed fs tempDir trimOk concatOk muxOk edl audio_path
        output_path).fs.dirs.contains tempDir) = false := by
  have ham : audio_path ∈ fs.files := by simpa using ha
  have hclean : tempDir ∉
      (cleanupFS { files := fs.files, dirs := fs.dirs ++ [tempDir] } tempDir).dirs := by
    simpa using cleanupFS_no_tempdir { files := fs.files, dirs := fs.dirs ++ [tempDir] } tempDir
  have hacc : stageLoop fs.files trimOk tempDir 0 edl.shots ⟨[], 0, [], none⟩ =
      ⟨[], 0, [], some .attrError⟩ := by
    cases hsh : edl.shots with
    | nil => exact absurd hsh hne
    | cons s rest => exact stageLoop_head_attr_error fs.files trimOk tempDir 0 s rest _
  have hstage := stageLoopFixed_all_missing fs.files trimOk tempDir edl.shots 0
    ⟨[], 0, [], none⟩ hs
  refine ⟨?_, ?_, ?_, ?_, ?_⟩
  · simp [render_video, ham, hacc]
  · simp [render_video, ham, hacc]
  · simp [render_video, ham, hacc, hclean]
  · simp [render_videoFixed, ham, hstage]
  · simp [render_videoFixed, ham, hstage, hclean]

/-- Witness for C3: at the concrete failing input — audio present, one shot
referencing the missing `v.mp4` — the shipped code raises `AttributeError`
with zero tool calls (workspace still cleaned), while the repaired read
yields the claim's `noValidClips`. -/
theorem render_all_sources_missing_attribute_error_witness :
    (render_video ⟨["a.wav"], []⟩ "tmp" (fun _ => true) true true
        ⟨[⟨"v.mp4", 0, 1, "hard_cut", none⟩]⟩ "a.wav" "out.mp4").result =
      .error .attributeError ∧
    (render_video ⟨["a.wav"], []⟩ "tmp" (fun _ => true) true true
        ⟨[⟨"v.mp4", 0, 1, "hard_cut", none⟩]⟩ "a.wav" "out.mp4").toolCalls = 0 ∧
    ((render_video ⟨["a.wav"], []⟩ "tmp" (fun _ => true) true true
        ⟨[⟨"v.mp4", 0, 1, "hard_cut", none⟩]⟩ "a.wav" "out.mp4").fs.dirs.contains "tmp")
      = false ∧
    (render_videoFixed ⟨["a.wav"], []⟩ "tmp" (fun _ => true) true true
        ⟨[⟨"v.mp4", 0, 1, "hard_cut", none⟩]⟩ "a.wav" "out.mp4").result =
      .error .noValidClips ∧
    ((render_videoFixed ⟨["a.wav"], []⟩ "tmp" (fun _ => true) true true
        ⟨[⟨"v.mp4", 0, 1, "hard_cut", none⟩]⟩ "a.wav" "out.mp4").fs.dirs.contains "tmp")
      = false :=
  render_all_sources_missing_attribute_error ⟨["a.wav"], []⟩ "tmp" (fun _ => true) true true
    ⟨[⟨"v.mp4", 0, 1, "hard_cut", none⟩]⟩ "a.wav" "out.mp4" (by decide) (by decide) (by decide)

/-- C10.  When the supplied audio file does not exist, `render_video` raises
`FileNotFoundError` before the workspace is created and before any external
tool runs: the call returns the file system unchanged (in particular no
workspace directory was created) with zero tool invocations. -/
theorem render_missing_audio (fs : FS) (tempDir : String) (trimOk : Nat → Bool)
    (concatOk muxOk : Bool) (edl : EditDecisionList) (audio_path output_path : String)
    (h : fs.files.contains audio_path = false) :
    render_video fs tempDir trimOk concatOk muxOk edl audio_path output_path =
      ⟨fs, 0, .error (.audioNotFound audio_path)⟩ := by
  have hm : audio_path ∉ fs.files := by simpa using h
  simp [render_video, hm]

/-- Witness for C10: a concrete call with a missing audio file returns the
file system unchanged and zero tool invocations. -/
theorem render_missing_audio_witness :
    render_video ⟨["v.mp4"], []⟩ "tmp" (fun _ => true) true true
        ⟨[⟨"v.mp4", 0, 1, "hard_cut", none⟩]⟩ "a.wav" "out.mp4" =
      ⟨⟨["v.mp4"], []⟩, 0, .error (.audioNotFound "a.wav")⟩ :=
  render_missing_audio ⟨["v.mp4"], []⟩ "tmp" (fun _ => true) true true
    ⟨[⟨"v.mp4", 0, 1, "hard_cut", none⟩]⟩ "a.wav" "out.mp4" (by decide)

end Momentum
